import Mathlib

/-!
Verification development for the QUIC-FTP client (`ftps_qftp-client`).

The definitions below are shallow embeddings of the Go source:
`String` stands for Go strings (modelled at the character level; all
characters relevant to the claims are single-byte ASCII, so Go byte
indices and character indices coincide on the inputs the claims talk
about), Go maps are modelled as association lists with overwrite
semantics, Go runtime panics (index/slice out of range) are explicit
outcomes, and fallible code returns `Except`/`Option`.
-/

namespace Ftpq

/-! ### Go string primitives -/

/-- `strings.HasPrefix(s, p)` from the Go standard library:
whether `s` starts with `p`. -/
def strStartsWith (s p : String) : Bool :=
  s.data.take p.data.length == p.data

/-- Split a character list at the first occurrence of `c`:
`none` when `c` does not occur, otherwise the part before and after it.
This is the essence of Go `strings.SplitN(s, c, 2)` / `strings.Index`. -/
def breakAtFirst (c : Char) : List Char → Option (List Char × List Char)
  | [] => none
  | x :: xs =>
    if x = c then some ([], xs)
    else
      match breakAtFirst c xs with
      | none => none
      | some (a, b) => some (x :: a, b)

/-- `strings.Index(s, string(c))` for a one-character needle:
index of the first occurrence of `c` in `s`, `-1` when absent. -/
def goIndexChar (s : String) (c : Char) : Int :=
  match breakAtFirst c s.data with
  | none => -1
  | some (a, _) => (a.length : Int)

/-- `strings.LastIndex(s, string(c))` for a one-character needle:
index of the last occurrence of `c` in `s`, `-1` when absent. -/
def goLastIndexChar (s : String) (c : Char) : Int :=
  match breakAtFirst c s.data.reverse with
  | none => -1
  | some (a, _) => (s.data.length : Int) - 1 - (a.length : Int)

/-- Helper for `goFields`: accumulates the current word (reversed). -/
def goFieldsAux : List Char → List Char → List String
  | cur, [] => if cur = [] then [] else [String.mk cur.reverse]
  | cur, c :: cs =>
    if c.isWhitespace then
      if cur = [] then goFieldsAux [] cs
      else String.mk cur.reverse :: goFieldsAux [] cs
    else goFieldsAux (c :: cur) cs

/-- `strings.Fields(s)`: split `s` around runs of whitespace,
dropping empty fields. -/
def goFields (s : String) : List String :=
  goFieldsAux [] s.data

/-- `strings.Split(s, string(c))` for a one-character separator:
all pieces, empty pieces kept (`Split("", c) = [""]`). -/
def splitOnChar (c : Char) : List Char → List (List Char)
  | [] => [[]]
  | x :: xs =>
    if x = c then [] :: splitOnChar c xs
    else
      match splitOnChar c xs with
      | [] => [[x]]
      | w :: ws => (x :: w) :: ws

/-- `strings.TrimLeft(s, " ")`: drop leading space characters. -/
def trimLeftSpaces (s : String) : String :=
  String.mk (s.data.dropWhile (· = ' '))

/-- `strings.TrimSpace(s)`: drop leading and trailing whitespace. -/
def goTrimSpace (s : String) : String :=
  String.mk (((s.data.dropWhile Char.isWhitespace).reverse.dropWhile Char.isWhitespace).reverse)

/-- `strings.Join(xs, " ")`. -/
def goJoinSpace (xs : List String) : String :=
  String.intercalate " " xs

/-- Numeric value of a list of decimal digit characters. -/
def digitsVal (ds : List Char) : Nat :=
  ds.foldl (fun a c => a * 10 + (c.toNat - 48)) 0

/-- The digit-run part of `strconv.ParseInt(s, 10, 64)` after sign
detection: a non-empty run of decimal digits whose signed value fits in
64 bits. -/
def parseIntCore (sign : Int) (ds : List Char) : Option Int :=
  if ds = [] then none
  else if ds.all Char.isDigit then
    let v : Int := sign * (digitsVal ds : Int)
    if -(2 ^ 63) ≤ v ∧ v ≤ 2 ^ 63 - 1 then some v else none
  else none

/-- `strconv.ParseInt(s, 10, 64)`: optional sign, then a non-empty run
of decimal digits; errors (here `none`) on empty input, stray
characters, or values outside the signed 64-bit range. -/
def parseIntGo (s : String) : Option Int :=
  match s.data with
  | [] => none
  | c :: rest =>
    if c = '-' then parseIntCore (-1) rest
    else if c = '+' then parseIntCore 1 rest
    else parseIntCore 1 (c :: rest)

/-- `strconv.ParseUint(s, 10, 64)`: a non-empty run of decimal digits,
no sign allowed; errors on empty input, stray characters or overflow. -/
def parseUint10 (s : String) : Option Nat :=
  if s.data = [] then none
  else if s.data.all Char.isDigit then
    let n := digitsVal s.data
    if n < 2 ^ 64 then some n else none
  else none

/-! ### FTP status constants

Modelled from the spec: the Go file defining the `Status...` numeric
constants is not under `src/`; the values are the ones the spec states
(125 *already open*, 150 *about to send*, 211 *system status* for FEAT). -/

/-- Modelled from the spec: FTP reply code 125, data connection already open. -/
def StatusAlreadyOpen : Nat := 125

/-- Modelled from the spec: FTP reply code 150, about to open data connection. -/
def StatusAboutToSend : Nat := 150

/-- Modelled from the spec: FTP reply code 211, system status reply used by FEAT. -/
def StatusSystem : Nat := 211

/-! ### C3: reset-worker tally in MultipleTransfer

`MultipleTransfer`'s collector (part_001, line 259) runs
`strings.HasPrefix("Go routine reset.", replay.Error())` — note the
argument order — and increments `goRoutineResetReply` when it is true.
Workers (`parallelTransfer`, multipleFtpUtilities.go) send errors built
as `"Go routine reset. " + err.Error()`. -/

/-- The marker the aborted workers attach to their single result. -/
def resetMarker : String := "Go routine reset."

/-- The error message an aborted worker emits on Login or CWD failure
(`parallelTransfer` in multipleFtpUtilities.go). -/
def workerResetMessage (e : String) : String :=
  "Go routine reset. " ++ e

/-- Whether `MultipleTransfer`'s collector increments the
`goRoutineResetReply` counter for a non-nil result with message `errMsg`
(part_001 line 259, arguments exactly as in the source). -/
def resetReplyIncrement (errMsg : String) : Bool :=
  strStartsWith resetMarker errMsg

/-! ### C5: CurrentDir PWD parsing

`CurrentDir` (part_002 lines 453–467): find the first and last `"` in
the reply message; if either is absent return a format error; otherwise
return `msg[start+1:end]`.  In Go the slice expression panics when
`start+1 > end`, which happens exactly when the message contains a
single `"`; the model makes that panic explicit. -/

inductive PwdOutcome where
  | ok (dir : String)
  | formatError
  | panicked
  deriving DecidableEq, Repr

/-- The parsing step of `CurrentDir` applied to the PWD reply message. -/
def currentDirParse (msg : String) : PwdOutcome :=
  let start := goIndexChar msg '\"'
  let stop := goLastIndexChar msg '\"'
  if start = -1 ∨ stop = -1 then .formatError
  else if start + 1 ≤ stop then
    .ok (String.mk ((msg.data.drop (start + 1).toNat).take (stop - (start + 1)).toNat))
  else .panicked

/-! ### C7: stream-ID splicing in cmdDataSendStreamFrom

(part_002 lines 176–181): `SplitN(format, " ", 2)`; with fewer than two
parts the ID is appended after the verb, otherwise it is inserted
between the verb and the rest. -/

/-- The command-text rewriting step of `cmdDataSendStreamFrom`. -/
def spliceStreamID (format : String) (id : Nat) : String :=
  match breakAtFirst ' ' format.data with
  | none => format ++ " " ++ toString id
  | some (a, b) => String.mk a ++ " " ++ toString id ++ " " ++ String.mk b

/-! ### C1/C4/C10: the data-stream rendezvous (getDataRetriveStream)

(part_002 lines 202–221.)  A unidirectional receive stream is modelled
as its QUIC stream ID plus a tag distinguishing distinct streams; the
session's pending-receive-streams map (`dataRetriveStreams`) is an
association list keyed by stream ID with Go-map overwrite semantics;
the streams the QUIC session will hand to `AcceptUniStream`, in order,
are a list (an empty list models the accept call failing).  The model
also records the mutex and accept events the call performs, so that
lock-discipline claims are statable. -/

/-- A unidirectional QUIC receive stream: its stream ID plus a tag
distinguishing it from other streams. -/
structure QStream where
  streamID : Nat
  tag : Nat
  deriving DecidableEq, Repr

/-- The pending-receive-streams map `dataRetriveStreams`. -/
abbrev RMap := List (Nat × QStream)

/-- Go map read `m[k]`. -/
def lookupM (m : RMap) (k : Nat) : Option QStream :=
  match m with
  | [] => none
  | (k2, v) :: rest => if k2 = k then some v else lookupM rest k

/-- Go map write `m[k] = v` (overwrites an existing key). -/
def insertM (m : RMap) (k : Nat) (v : QStream) : RMap :=
  match m with
  | [] => [(k, v)]
  | (k2, v2) :: rest => if k2 = k then (k, v) :: rest else (k2, v2) :: insertM rest k v

/-- Go map `delete(m, k)`. -/
def eraseM (m : RMap) (k : Nat) : RMap :=
  match m with
  | [] => []
  | (k2, v2) :: rest => if k2 = k then rest else (k2, v2) :: eraseM rest k

/-- The two error returns of `getDataRetriveStream`: `AcceptUniStream`
failing, and the lost-stream error `"Could not get wanted stream."`. -/
inductive RendErr where
  | acceptFailure
  | lostStream
  deriving DecidableEq, Repr

/-- Mutex and blocking-accept events performed by the call. -/
inductive LockEvent where
  | lock
  | unlock
  | acceptUni
  deriving DecidableEq, Repr

/-- Result of a `getDataRetriveStream` call: the returned stream or
error, the final pending-streams map, and the event trace. -/
structure RunResult where
  outcome : Except RendErr QStream
  finalMap : RMap
  events : List LockEvent
  deriving Repr

/-- The `for` loop of `getDataRetriveStream` (part_002 lines 206–220):
check the map for `sid`, removing and returning a hit; otherwise accept
the next stream, file it in the map under its own ID, error out if its
ID exceeds `sid`, and loop. -/
def rendezvousLoop (sid : Nat) (m : RMap) (pending : List QStream) : RunResult :=
  match lookupM m sid with
  | some s => ⟨.ok s, eraseM m sid, []⟩
  | none =>
    match pending with
    | [] => ⟨.error .acceptFailure, m, [.acceptUni]⟩
    | s :: rest =>
      let m2 := insertM m s.streamID s
      if sid < s.streamID then ⟨.error .lostStream, m2, [.acceptUni]⟩
      else
        let r := rendezvousLoop sid m2 rest
        ⟨r.outcome, r.finalMap, .acceptUni :: r.events⟩

/-- `getDataRetriveStream`: the mutex is locked once on entry and the
deferred unlock runs on every return path, so the trace is the loop's
accepts bracketed by one lock/unlock pair. -/
def getDataRetriveStream (sid : Nat) (m : RMap) (pending : List QStream) : RunResult :=
  let r := rendezvousLoop sid m pending
  ⟨r.outcome, r.finalMap, .lock :: (r.events ++ [.unlock])⟩

/-- Occurrences of an event in a trace. -/
def countEv (e : LockEvent) : List LockEvent → Nat
  | [] => 0
  | x :: xs => (if x = e then 1 else 0) + countEv e xs

/-- Whether the session mutex is held just before the `i`-th event of a
trace: more lock than unlock events strictly precede it. -/
def heldAt (evs : List LockEvent) (i : Nat) : Bool :=
  countEv .unlock (evs.take i) < countEv .lock (evs.take i)

/-! ### C2: reply validation in cmdDataReceiveStreamFrom

(part_002 lines 135–150.) -/

/-- Outcome of `cmdDataReceiveStreamFrom`'s handling of the preliminary
reply `(code, msg)`: the `textproto.Error` for an unexpected code, the
two protocol-format errors, or claiming the stream with the parsed ID
(the call then proceeds to `getDataRetriveStream`). -/
inductive RecvOutcome where
  | protoReply (code : Nat) (msg : String)
  | errNoID
  | errBadID
  | claimStream (id : Int)
  deriving DecidableEq, Repr

/-- The stream-ID extraction of `cmdDataReceiveStreamFrom` (part_002
lines 142–150): `SplitN(msg, " ", 2)` must give two parts, the first
must `ParseInt` (base 10, 64 bit) to a value that is non-negative and
3 mod 4 (Go's `%` truncates, hence `tmod`). -/
def parseStreamIDFromMsg (msg : String) : RecvOutcome :=
  match breakAtFirst ' ' msg.data with
  | none => .errNoID
  | some (a, _) =>
    match parseIntGo (String.mk a) with
    | none => .errBadID
    | some i => if i < 0 ∨ i.tmod 4 ≠ 3 then .errBadID else .claimStream i

/-- The reply-checking and stream-ID-parsing steps of
`cmdDataReceiveStreamFrom` after `ReadResponse` yields `(code, msg)`. -/
def cmdDataReceiveReplyCheck (code : Nat) (msg : String) : RecvOutcome :=
  if code ≠ StatusAlreadyOpen ∧ code ≠ StatusAboutToSend then .protoReply code msg
  else parseStreamIDFromMsg msg

/-- The spec's validity condition (§4.4 step 4): the message begins with
an ASCII decimal integer `i` followed by a space, with `i` non-negative,
`i ≠ 0` and `i mod 4 = 3`. -/
def beginsWithValidStreamID (msg : String) : Prop :=
  ∃ (sgn ds rest : List Char),
    (sgn = [] ∨ sgn = ['+'] ∨ sgn = ['-']) ∧
    ds ≠ [] ∧ ds.all Char.isDigit ∧
    msg.data = sgn ++ ds ++ ' ' :: rest ∧
    ((if sgn = ['-'] then -1 else 1) * (digitsVal ds : Int) ≠ 0 ∧
     0 ≤ (if sgn = ['-'] then -1 else 1) * (digitsVal ds : Int) ∧
     ((if sgn = ['-'] then -1 else 1) * (digitsVal ds : Int)) % 4 = 3)

/-! ### C8: Feat and the features map

(part_002 lines 69–101.)  The features map is an association list with
Go-map overwrite semantics; `featUpdate` is what `Feat` does to the map
once `cmd(-1, "FEAT")` has returned `(code, message)` without a
transport error (in that case `Feat` itself returns success on every
path, for any reply code). -/

/-- The features map `command → description`. -/
abbrev FeatMap := List (String × String)

/-- Go map write on the features map. -/
def insertF (m : FeatMap) (k v : String) : FeatMap :=
  match m with
  | [] => [(k, v)]
  | (k2, v2) :: rest => if k2 = k then (k, v) :: rest else (k2, v2) :: insertF rest k v

/-- One iteration of `Feat`'s line loop: skip lines without a leading
space, otherwise trim, split at the first space into command and
optional description, and store them. -/
def featProcessLine (fm : FeatMap) (line : String) : FeatMap :=
  if strStartsWith line " " then
    let t := goTrimSpace line
    match breakAtFirst ' ' t.data with
    | none => insertF fm t ""
    | some (a, b) => insertF fm (String.mk a) (String.mk b)
  else fm

/-- `Feat`'s effect on the features map given the reply `(code, message)`:
any code other than 211 leaves the map untouched (and `Feat` returns
`nil`); a 211 reply has its lines folded into the map. -/
def featUpdate (fm : FeatMap) (code : Nat) (message : String) : FeatMap :=
  if code ≠ StatusSystem then fm
  else ((splitOnChar '\n' message.data).map String.mk).foldl featProcessLine fm

/-! ### C6/C9: the listing parsers

(part_002 lines 223–390 plus `Entry.SetSize`/`Entry.SetTime` from
part_003 lines 565–583.)  Calendar parsing (`time.Parse`) and base-0
integer parsing (`strconv.ParseUint(str, 0, 64)`, used only by
`SetSize`) are abstracted as parameters: `tp fmt s` is `time.Parse(fmt,
s)` (`none` on error, otherwise an abstract time token) and `pu0 s` is
`ParseUint(s, 0, 64)` as (value, success).  No claim depends on their
behaviour; quantifying over them keeps the theorems valid for every
implementation.  `thisYear` stands for the year of `time.Now()`.
Go runtime panics (out-of-range index or slice) are the explicit
outcome `panicked`. -/

/-- `EntryType` (part_003): the zero value is `file`. -/
inductive EntryType where
  | file
  | folder
  | link
  deriving DecidableEq, Repr

/-- `Entry` (part_003); `time` is an abstract token produced by the
`time.Parse` parameter, `0` for the zero time. -/
structure Entry where
  name : String
  etype : EntryType
  size : Nat
  time : Nat
  deriving DecidableEq, Repr

/-- Outcome of one listing parser on one line: a parsed entry, the
`errUnsupportedListLine` sentinel, one of the other error returns, or a
Go runtime panic. -/
inductive ParseOutcome where
  | ok (e : Entry)
  | unsupported
  | sizeErr
  | timeErr
  | yearErr
  | unknownType
  | panicked
  deriving DecidableEq, Repr

/-- `strconv.Itoa(y)[2:4]` from `Entry.SetTime`; the slice panics when
the rendered year has fewer than four digits. -/
def yearTwoDigits (y : Nat) : Option String :=
  let ds := (toString y).data
  if 4 ≤ ds.length then some (String.mk ((ds.drop 2).take 2)) else none

/-- `Entry.SetTime` (part_003 lines 570–583): assemble a
`"_2 Jan 06 15:04 MST"` string from three fields — month, day and
either `HH:MM` (current year) or a four-digit year — and parse it.
All call sites pass exactly three fields; any other shape would panic
on a field access. -/
def setTimeGo (tp : String → String → Option Nat) (thisYear : Nat)
    (fs : List String) : Except ParseOutcome Nat :=
  match fs with
  | [f0, f1, f2] =>
    if f2.data.contains ':' then
      match yearTwoDigits thisYear with
      | none => .error .panicked
      | some yy =>
        match tp "_2 Jan 06 15:04 MST" (f1 ++ " " ++ f0 ++ " " ++ yy ++ " " ++ f2 ++ " GMT") with
        | none => .error .timeErr
        | some t => .ok t
    else if f2.data.length ≠ 4 then .error .yearErr
    else
      match tp "_2 Jan 06 15:04 MST"
          (f1 ++ " " ++ f0 ++ " " ++ String.mk (f2.data.drop 2) ++ " 00:00 GMT") with
      | none => .error .timeErr
      | some t => .ok t
  | _ => .error .panicked

/-- `parseLsListLine` (part_002 lines 270–325).  The two Windows-FTPD
variants come first; note that the second variant's guard reads
`fields[1]` without any length check, and its body slices `fields[7:]`,
both of which panic when the line is too short. -/
def parseLsListLine (tp : String → String → Option Nat) (pu0 : String → Nat × Bool)
    (thisYear : Nat) (line : String) : ParseOutcome :=
  let fields := goFields line
  if 7 ≤ fields.length ∧ fields.getD 1 "" = "folder" ∧ fields.getD 2 "" = "0" then
    match setTimeGo tp thisYear ((fields.drop 3).take 3) with
    | .error o => o
    | .ok t => .ok ⟨goJoinSpace (fields.drop 6), .folder, 0, t⟩
  else
    match fields.get? 1 with
    | none => .panicked
    | some f1 =>
      if f1 = "0" then
        if fields.length < 7 then .panicked
        else
          let name := goJoinSpace (fields.drop 7)
          let sz := pu0 (fields.getD 2 "")
          if sz.2 = false then .sizeErr
          else
            match setTimeGo tp thisYear ((fields.drop 4).take 3) with
            | .error o => o
            | .ok t => .ok ⟨name, .file, sz.1, t⟩
      else
        if fields.length < 9 then .unsupported
        else
          match (fields.getD 0 "").data with
          | [] => .panicked
          | c :: _ =>
            let tyres : Except ParseOutcome (EntryType × Nat) :=
              if c = '-' then
                let sz := pu0 (fields.getD 4 "")
                if sz.2 = false then .error .sizeErr else .ok (.file, sz.1)
              else if c = 'd' then .ok (.folder, 0)
              else if c = 'l' then .ok (.link, 0)
              else .error .unknownType
            match tyres with
            | .error o => o
            | .ok (ty, sz) =>
              match setTimeGo tp thisYear ((fields.drop 5).take 3) with
              | .error o => o
              | .ok t => .ok ⟨goJoinSpace (fields.drop 8), ty, sz, t⟩

/-- The fact loop of `parseRFC3659ListLine` (part_002 lines 238–264):
each `key=value` field needs `=` at index ≥ 1; `modify` parses the
timestamp (propagating the parse error), `type` maps the known values,
`size` stores the value with the error discarded. -/
def rfcApplyFacts (tp : String → String → Option Nat) (pu0 : String → Nat × Bool)
    (e : Entry) : List String → Except ParseOutcome Entry
  | [] => .ok e
  | field :: rest =>
    let i := goIndexChar field '='
    if i < 1 then .error .unsupported
    else
      let key := String.mk (field.data.take i.toNat)
      let value := String.mk (field.data.drop (i.toNat + 1))
      if key = "modify" then
        match tp "20060102150405" value with
        | none => .error .timeErr
        | some t => rfcApplyFacts tp pu0 { e with time := t } rest
      else if key = "type" then
        if value = "dir" ∨ value = "cdir" ∨ value = "pdir" then
          rfcApplyFacts tp pu0 { e with etype := .folder } rest
        else if value = "file" then
          rfcApplyFacts tp pu0 { e with etype := .file } rest
        else rfcApplyFacts tp pu0 e rest
      else if key = "size" then
        rfcApplyFacts tp pu0 { e with size := (pu0 value).1 } rest
      else rfcApplyFacts tp pu0 e rest

/-- `parseRFC3659ListLine` (part_002 lines 226–266): requires a `;`
before the first space; the name starts after the first space, the
facts are `line[:iWhitespace-1]` split on `;`. -/
def parseRFC3659ListLine (tp : String → String → Option Nat) (pu0 : String → Nat × Bool)
    (line : String) : ParseOutcome :=
  let iSemi := goIndexChar line ';'
  let iWs := goIndexChar line ' '
  if iSemi < 0 ∨ iWs < iSemi then .unsupported
  else if iWs = 0 then .panicked
  else
    let e0 : Entry := ⟨String.mk (line.data.drop (iWs.toNat + 1)), .file, 0, 0⟩
    let fields := (splitOnChar ';' (line.data.take (iWs.toNat - 1))).map String.mk
    match rfcApplyFacts tp pu0 e0 fields with
    | .error o => o
    | .ok e => .ok e

/-- The part of `parseDirListLine` after a time format matched
(part_002 lines 351–369): `<DIR>` means a folder, otherwise a base-10
size up to the next space; the name is the left-trimmed remainder. -/
def dirRest (t : Nat) (rest : String) : ParseOutcome :=
  let line1 := trimLeftSpaces rest
  if strStartsWith line1 "<DIR>" then
    .ok ⟨trimLeftSpaces (String.mk (line1.data.drop 5)), .folder, 0, t⟩
  else
    match breakAtFirst ' ' line1.data with
    | none => .unsupported
    | some (a, b) =>
      match parseUint10 (String.mk a) with
      | none => .unsupported
      | some n => .ok ⟨trimLeftSpaces (String.mk (' ' :: b)), .file, n, t⟩

/-- `parseDirListLine` (part_002 lines 334–370): try the two 17-byte
time formats on the line's prefix (the slice `line[:len(format)]`
panics when the line is shorter); none matching means unsupported. -/
def parseDirListLine (tp : String → String → Option Nat) (line : String) : ParseOutcome :=
  if line.data.length < 17 then .panicked
  else
    match tp "01-02-06  03:04PM" (String.mk (line.data.take 17)) with
    | some t => dirRest t (String.mk (line.data.drop 17))
    | none =>
      match tp "2006-01-02  15:04" (String.mk (line.data.take 17)) with
      | some t => dirRest t (String.mk (line.data.drop 17))
      | none => .unsupported

/-- The loop of `parseListLine` (part_002 lines 380–390): try each
parser, moving on exactly when it reports `errUnsupportedListLine`. -/
def tryLineForms : List (String → ParseOutcome) → String → ParseOutcome
  | [], _ => .unsupported
  | p :: ps, line =>
    match p line with
    | .unsupported => tryLineForms ps line
    | r => r

/-- The `listLineParsers` table (part_002 lines 372–376), in source
order. -/
def listLineForms (tp : String → String → Option Nat) (pu0 : String → Nat × Bool)
    (thisYear : Nat) : List (String → ParseOutcome) :=
  [parseRFC3659ListLine tp pu0, parseLsListLine tp pu0 thisYear, parseDirListLine tp]

/-- `parseListLine` (part_002 lines 380–390). -/
def parseListLine (tp : String → String → Option Nat) (pu0 : String → Nat × Bool)
    (thisYear : Nat) (line : String) : ParseOutcome :=
  tryLineForms (listLineForms tp pu0 thisYear) line

/-- The line loop of `List` (part_002 lines 422–429): a line whose
parse yields an entry is kept, every error is silently dropped, and a
Go panic in a parser unwinds the whole call (`Except.error ()`). -/
def listLines (tp : String → String → Option Nat) (pu0 : String → Nat × Bool)
    (thisYear : Nat) : List String → Except Unit (List Entry)
  | [] => .ok []
  | l :: ls =>
    match parseListLine tp pu0 thisYear l with
    | .panicked => .error ()
    | .ok e =>
      match listLines tp pu0 thisYear ls with
      | .ok es => .ok (e :: es)
      | .error u => .error u
    | _ => listLines tp pu0 thisYear ls

/-! ## Helper lemmas -/

/-- `breakAtFirst` fails exactly on lists without the character. -/
theorem breakAtFirst_eq_none_of_not_mem {c : Char} {xs : List Char} (h : c ∉ xs) :
    breakAtFirst c xs = none := by
  induction xs with
  | nil => rfl
  | cons x xs ih =>
    have hx : ¬ x = c := fun he => h (he ▸ List.mem_cons_self x xs)
    have hxs : c ∉ xs := fun hm => h (List.mem_cons_of_mem x hm)
    simp [breakAtFirst, hx, ih hxs]

/-- `breakAtFirst` on a list whose first occurrence of `c` is after `a`. -/
theorem breakAtFirst_append {c : Char} {a : List Char} (b : List Char) (h : c ∉ a) :
    breakAtFirst c (a ++ c :: b) = some (a, b) := by
  induction a with
  | nil => simp [breakAtFirst]
  | cons x xs ih =>
    have hx : ¬ x = c := fun he => h (he ▸ List.mem_cons_self x xs)
    have hxs : c ∉ xs := fun hm => h (List.mem_cons_of_mem x hm)
    simp [breakAtFirst, hx, ih hxs]

/-- Soundness of `breakAtFirst`: a successful split reassembles the list. -/
theorem breakAtFirst_sound {c : Char} :
    ∀ {xs a b : List Char}, breakAtFirst c xs = some (a, b) → xs = a ++ c :: b := by
  intro xs
  induction xs with
  | nil => intro a b h; simp [breakAtFirst] at h
  | cons x xs ih =>
    intro a b h
    by_cases hx : x = c
    · subst hx; simp [breakAtFirst] at h
      obtain ⟨ha, hb⟩ := h; subst ha; subst hb; rfl
    · simp [breakAtFirst, hx] at h
      rcases hr : breakAtFirst c xs with _ | ⟨a2, b2⟩ <;> rw [hr] at h
      · simp at h
      · simp at h
        obtain ⟨ha, hb⟩ := h
        subst hb; rw [← ha]
        simp [ih hr]

/-! ## C3 -/

/-- C3: counter to the claim, the collector of `MultipleTransfer` never
increments `goRoutineResetReply` for the messages the aborted workers
actually send: the source has the `strings.HasPrefix` arguments swapped,
so the tally fires only when the message is a prefix of
`"Go routine reset."` — yet every worker reset message strictly extends
the marker (second conjunct: it does start with the marker, so the
claim/spec say it must be tallied). -/
theorem multipleTransfer_reset_tally_bug :
    (∀ e : String, resetReplyIncrement (workerResetMessage e) = false) ∧
    strStartsWith (workerResetMessage "dial failed") resetMarker = true := by
  constructor
  · intro e
    have hlen : (resetMarker.data.take (workerResetMessage e).data.length).length ≠
        (workerResetMessage e).data.length := by
      have h1 : ("Go routine reset. " ++ e : String).data = "Go routine reset. ".data ++ e.data :=
        String.data_append _ _
      have h2 : (workerResetMessage e).data.length = 18 + e.data.length := by
        simp [workerResetMessage, h1]; omega
      have h3 : (resetMarker.data.take (workerResetMessage e).data.length).length ≤ 17 := by
        calc (resetMarker.data.take (workerResetMessage e).data.length).length
            = min (workerResetMessage e).data.length resetMarker.data.length :=
              List.length_take _ _
          _ ≤ resetMarker.data.length := min_le_right _ _
          _ = 17 := by decide
      omega
    have : (resetMarker.data.take (workerResetMessage e).data.length ==
        (workerResetMessage e).data) = false := by
      apply beq_false_of_ne
      intro he
      exact hlen (by rw [he])
    simpa [resetReplyIncrement, strStartsWith] using this
  · decide

/-! ## C5 -/

/-- C5: evaluating `CurrentDir`'s parsing on concrete PWD messages: a
message with exactly one `"` makes the Go slice `msg[start+1:end]`
panic (`start+1 > end`) instead of producing the protocol-format error
the claim promises; messages without `"` do give the format error, and
the two-quote case returns the text strictly between the quotes. -/
theorem currentDir_single_quote_panics :
    currentDirParse (String.mk ['2', '5', '7', ' ', '\"']) = PwdOutcome.panicked ∧
    currentDirParse "no quotes here" = PwdOutcome.formatError ∧
    currentDirParse "\"incoming\" created" = PwdOutcome.ok "incoming" := by
  refine ⟨by decide, by decide, by decide⟩

/-! ## C7 -/

/-- C7: `cmdDataSendStreamFrom` splices the stream ID into the command
text exactly at the first space of the verb+args string: with no space
the ID is appended after the verb, otherwise the string becomes
`verb ++ " " ++ id ++ " " ++ rest` where `verb` is the part before the
first space and `rest` the part after it. -/
theorem cmdDataSendStreamFrom_splice (format : String) (id : Nat) :
    (' ' ∉ format.data → spliceStreamID format id = format ++ " " ++ toString id) ∧
    (∀ a b : List Char, format.data = a ++ ' ' :: b → ' ' ∉ a →
      spliceStreamID format id =
        String.mk a ++ " " ++ toString id ++ " " ++ String.mk b) := by
  constructor
  · intro h
    simp [spliceStreamID, breakAtFirst_eq_none_of_not_mem h]
  · intro a b hsplit ha
    have : breakAtFirst ' ' format.data = some (a, b) := by
      rw [hsplit]; exact breakAtFirst_append b ha
    simp [spliceStreamID, this]

/-- Witness for C7 at `STOR %s` with stream ID 6. -/
theorem cmdDataSendStreamFrom_splice_witness :
    ("STOR %s" : String).data = "STOR".data ++ ' ' :: "%s".data ∧
    ' ' ∉ ("STOR" : String).data ∧
    spliceStreamID "STOR %s" 6 =
      String.mk ("STOR" : String).data ++ " " ++ toString 6 ++ " " ++ String.mk ("%s" : String).data :=
  ⟨by decide, by decide,
    (cmdDataSendStreamFrom_splice "STOR %s" 6).2 "STOR".data "%s".data (by decide) (by decide)⟩

/-! ## C8 -/

/-- C8: counterexample to the claim — after an earlier 211 reply has
populated the features map, a later non-211 reply leaves the stale
entries in place: the map is not empty afterwards (`Feat` never clears
it). -/
theorem feat_non211_stale_features :
    featUpdate (featUpdate [] 211 "211-Features\n UTF8\n211 End") 500 "FEAT not understood"
      ≠ ([] : FeatMap) := by
  decide

/-- C8 (amended): whenever `Feat` reads a reply whose code is not 211 it
returns success and leaves the features map exactly as it was — so the
map is empty afterwards only when it was empty before (as on a fresh
sub-connection). -/
theorem feat_non211_map_unchanged :
    ∀ (fm : FeatMap) (code : Nat) (msg : String), code ≠ 211 →
      featUpdate fm code msg = fm := by
  intro fm code msg h
  simp [featUpdate, StatusSystem, h]

/-- Witness for the amended C8 at a populated map and reply code 500. -/
theorem feat_non211_map_unchanged_witness :
    (500 : Nat) ≠ 211 ∧ featUpdate [("UTF8", "")] 500 "not supported" = [("UTF8", "")] :=
  ⟨by decide, feat_non211_map_unchanged [("UTF8", "")] 500 "not supported" (by decide)⟩

/-! ## Rendezvous lemmas (C1, C4, C10) -/

/-- Reading back the key just written into the map. -/
theorem lookupM_insertM_self (m : RMap) (k : Nat) (v : QStream) :
    lookupM (insertM m k v) k = some v := by
  induction m with
  | nil => simp [insertM, lookupM]
  | cons kv rest ih =>
    obtain ⟨k2, v2⟩ := kv
    by_cases hk : k2 = k <;> simp [insertM, lookupM, hk, ih]

/-- Membership after a map write: either an old entry or the new one. -/
theorem mem_insertM {m : RMap} {k0 : Nat} {v0 : QStream} {k : Nat} {v : QStream}
    (h : (k, v) ∈ insertM m k0 v0) : (k, v) ∈ m ∨ (k = k0 ∧ v = v0) := by
  induction m with
  | nil => simp [insertM] at h; right; exact h
  | cons kv rest ih =>
    obtain ⟨k2, v2⟩ := kv
    by_cases hk : k2 = k0
    · simp [insertM, hk] at h
      rcases h with ⟨h1, h2⟩ | h
      · right; exact ⟨h1, h2⟩
      · left; exact List.mem_cons_of_mem _ h
    · simp [insertM, hk] at h
      rcases h with ⟨h1, h2⟩ | h
      · left; subst h1; subst h2; exact List.mem_cons_self _ _
      · rcases ih h with h | h
        · left; exact List.mem_cons_of_mem _ h
        · right; exact h

/-- Membership after a map delete implies membership before. -/
theorem mem_eraseM {m : RMap} {k0 : Nat} {k : Nat} {v : QStream}
    (h : (k, v) ∈ eraseM m k0) : (k, v) ∈ m := by
  induction m with
  | nil => simp [eraseM] at h
  | cons kv rest ih =>
    obtain ⟨k2, v2⟩ := kv
    by_cases hk : k2 = k0
    · simp [eraseM, hk] at h
      exact List.mem_cons_of_mem _ h
    · simp [eraseM, hk] at h
      rcases h with ⟨h1, h2⟩ | h
      · subst h1; subst h2; exact List.mem_cons_self _ _
      · exact List.mem_cons_of_mem _ (ih h)

/-- Unfolding `rendezvousLoop` on a map hit. -/
theorem rendezvousLoop_hit {sid : Nat} {m : RMap} {s : QStream} (pending : List QStream)
    (h : lookupM m sid = some s) :
    rendezvousLoop sid m pending = ⟨Except.ok s, eraseM m sid, []⟩ := by
  cases pending <;> simp [rendezvousLoop, h]

/-- Unfolding `rendezvousLoop` on a map miss with no stream to accept. -/
theorem rendezvousLoop_none_nil {sid : Nat} {m : RMap} (h : lookupM m sid = none) :
    rendezvousLoop sid m [] = ⟨Except.error RendErr.acceptFailure, m, [LockEvent.acceptUni]⟩ := by
  simp [rendezvousLoop, h]

/-- Unfolding `rendezvousLoop` when the accepted stream overshoots. -/
theorem rendezvousLoop_none_gt {sid : Nat} {m : RMap} {s : QStream} (rest : List QStream)
    (h : lookupM m sid = none) (hgt : sid < s.streamID) :
    rendezvousLoop sid m (s :: rest) =
      ⟨Except.error RendErr.lostStream, insertM m s.streamID s, [LockEvent.acceptUni]⟩ := by
  simp [rendezvousLoop, h, hgt]

/-- Unfolding `rendezvousLoop` when the accepted stream does not
overshoot: file it and continue on the remaining arrivals. -/
theorem rendezvousLoop_none_le {sid : Nat} {m : RMap} {s : QStream} (rest : List QStream)
    (h : lookupM m sid = none) (hle : ¬ sid < s.streamID) :
    rendezvousLoop sid m (s :: rest) =
      ⟨(rendezvousLoop sid (insertM m s.streamID s) rest).outcome,
       (rendezvousLoop sid (insertM m s.streamID s) rest).finalMap,
       LockEvent.acceptUni :: (rendezvousLoop sid (insertM m s.streamID s) rest).events⟩ := by
  simp [rendezvousLoop, h, hle]

/-- Every event the rendezvous loop itself records is a blocking
`AcceptUniStream` call. -/
theorem rendezvousLoop_events_accept (sid : Nat) (pending : List QStream) :
    ∀ m : RMap, ∀ e ∈ (rendezvousLoop sid m pending).events, e = LockEvent.acceptUni := by
  induction pending with
  | nil =>
    intro m e he
    rcases hl : lookupM m sid with _ | s
    · rw [rendezvousLoop_none_nil hl] at he
      simpa using he
    · rw [rendezvousLoop_hit [] hl] at he
      simp at he
  | cons s rest ih =>
    intro m e he
    rcases hl : lookupM m sid with _ | s2
    · by_cases hlt : sid < s.streamID
      · rw [rendezvousLoop_none_gt rest hl hlt] at he
        simpa using he
      · rw [rendezvousLoop_none_le rest hl hlt] at he
        simp at he
        rcases he with he | he
        · exact he
        · exact ih (insertM m s.streamID s) e he
    · rw [rendezvousLoop_hit (s :: rest) hl] at he
      simp at he

/-! ## C1 -/

/-- C1: `getDataRetriveStream` follows the rendezvous algorithm exactly:
the wrapper returns the loop's outcome and map; a map hit removes and
returns the entry without accepting; otherwise, an accepted stream with
ID below the requested one is filed under its own ID and the loop
continues on the remaining arrivals, an accepted stream with the
requested ID is returned (and removed from the map again), and an
accepted stream with a larger ID makes the call return the lost-stream
error. -/
theorem getDataRetriveStream_rendezvous (sid : Nat) (m : RMap) (pending : List QStream) :
    ((getDataRetriveStream sid m pending).outcome = (rendezvousLoop sid m pending).outcome ∧
     (getDataRetriveStream sid m pending).finalMap = (rendezvousLoop sid m pending).finalMap) ∧
    (∀ s, lookupM m sid = some s →
      rendezvousLoop sid m pending = ⟨Except.ok s, eraseM m sid, []⟩) ∧
    (lookupM m sid = none →
      ∀ s rest, pending = s :: rest →
        (s.streamID < sid →
          rendezvousLoop sid m pending =
            ⟨(rendezvousLoop sid (insertM m s.streamID s) rest).outcome,
             (rendezvousLoop sid (insertM m s.streamID s) rest).finalMap,
             LockEvent.acceptUni :: (rendezvousLoop sid (insertM m s.streamID s) rest).events⟩) ∧
        (s.streamID = sid →
          (rendezvousLoop sid m pending).outcome = Except.ok s ∧
          (rendezvousLoop sid m pending).finalMap = eraseM (insertM m sid s) sid) ∧
        (sid < s.streamID →
          (rendezvousLoop sid m pending).outcome = Except.error RendErr.lostStream)) := by
  refine ⟨⟨rfl, rfl⟩, ?_, ?_⟩
  · intro s hs
    exact rendezvousLoop_hit pending hs
  · intro hnone s rest hp
    subst hp
    refine ⟨?_, ?_, ?_⟩
    · intro hlt
      have hnlt : ¬ sid < s.streamID := by omega
      exact rendezvousLoop_none_le rest hnone hnlt
    · intro heq
      have hnlt : ¬ sid < s.streamID := by omega
      have hfound : lookupM (insertM m s.streamID s) sid = some s := by
        rw [heq]; exact lookupM_insertM_self m sid s
      rw [rendezvousLoop_none_le rest hnone hnlt, rendezvousLoop_hit rest hfound, heq]
      exact ⟨rfl, rfl⟩
    · intro hgt
      rw [rendezvousLoop_none_gt rest hnone hgt]

/-- Witness for C1: requesting stream 3 with an empty map while the
session delivers exactly stream 3 returns that stream. -/
theorem getDataRetriveStream_rendezvous_witness :
    lookupM ([] : RMap) 3 = none ∧
    (rendezvousLoop 3 [] [⟨3, 5⟩]).outcome = Except.ok (⟨3, 5⟩ : QStream) :=
  ⟨by decide,
    (((getDataRetriveStream_rendezvous 3 [] [⟨3, 5⟩]).2.2 (by decide)
      ⟨3, 5⟩ [] rfl).2.1 rfl).1⟩

/-! ## C10 -/

/-- Key invariant of the pending map through the loop. -/
theorem rendezvousLoop_keys (sid : Nat) (pending : List QStream) :
    ∀ m : RMap, (∀ k s, (k, s) ∈ m → k = s.streamID) →
      ∀ k s, (k, s) ∈ (rendezvousLoop sid m pending).finalMap → k = s.streamID := by
  induction pending with
  | nil =>
    intro m hm k s hk
    rcases hl : lookupM m sid with _ | s2
    · rw [rendezvousLoop_none_nil hl] at hk
      exact hm k s hk
    · rw [rendezvousLoop_hit [] hl] at hk
      exact hm k s (mem_eraseM hk)
  | cons s0 rest ih =>
    intro m hm k s hk
    rcases hl : lookupM m sid with _ | s2
    · have hm2 : ∀ k s, (k, s) ∈ insertM m s0.streamID s0 → k = s.streamID := by
        intro k2 s2 h2
        rcases mem_insertM h2 with h2 | ⟨h2a, h2b⟩
        · exact hm k2 s2 h2
        · subst h2a; subst h2b; rfl
      by_cases hlt : sid < s0.streamID
      · rw [rendezvousLoop_none_gt rest hl hlt] at hk
        exact hm2 k s hk
      · rw [rendezvousLoop_none_le rest hl hlt] at hk
        exact ih (insertM m s0.streamID s0) hm2 k s hk
    · rw [rendezvousLoop_hit (s0 :: rest) hl] at hk
      exact hm k s (mem_eraseM hk)

/-- On the lost-stream error, the over-shooting accepted stream stays
filed in the map under its own ID. -/
theorem rendezvousLoop_lostStream_filed (sid : Nat) (pending : List QStream) :
    ∀ m : RMap, (rendezvousLoop sid m pending).outcome = Except.error RendErr.lostStream →
      ∃ s : QStream, sid < s.streamID ∧
        lookupM (rendezvousLoop sid m pending).finalMap s.streamID = some s := by
  induction pending with
  | nil =>
    intro m hout
    rcases hl : lookupM m sid with _ | s2
    · rw [rendezvousLoop_none_nil hl] at hout
      simp at hout
    · rw [rendezvousLoop_hit [] hl] at hout
      simp at hout
  | cons s0 rest ih =>
    intro m hout
    rcases hl : lookupM m sid with _ | s2
    · by_cases hlt : sid < s0.streamID
      · refine ⟨s0, hlt, ?_⟩
        rw [rendezvousLoop_none_gt rest hl hlt]
        exact lookupM_insertM_self m s0.streamID s0
      · rw [rendezvousLoop_none_le rest hl hlt] at hout ⊢
        exact ih (insertM m s0.streamID s0) hout
    · rw [rendezvousLoop_hit (s0 :: rest) hl] at hout
      simp at hout

/-- C10: every accepted stream is filed under its own stream ID, so if
every entry of the initial pending map has its stream's ID as key, the
same holds of the final map on every return path; and when the call
fails with the lost-stream error, the accepted stream whose ID exceeded
the requested one is still present in the map under its own ID. -/
theorem getDataRetriveStream_filing_invariant (sid : Nat) (m : RMap) (pending : List QStream) :
    (∀ k s, (k, s) ∈ m → k = s.streamID) →
    ((∀ k s, (k, s) ∈ (getDataRetriveStream sid m pending).finalMap → k = s.streamID) ∧
     ((getDataRetriveStream sid m pending).outcome = Except.error RendErr.lostStream →
       ∃ s : QStream, sid < s.streamID ∧
         lookupM (getDataRetriveStream sid m pending).finalMap s.streamID = some s)) := by
  intro hm
  constructor
  · exact rendezvousLoop_keys sid pending m hm
  · exact rendezvousLoop_lostStream_filed sid pending m

/-- Witness for C10: stream 7 arrives while stream 3 is wanted; the
lost-stream error is reported and stream 7 stays filed under key 7. -/
theorem getDataRetriveStream_filing_invariant_witness :
    (∀ k s, (k, s) ∈ ([] : RMap) → k = s.streamID) ∧
    ((getDataRetriveStream 3 [] [⟨7, 0⟩]).outcome = Except.error RendErr.lostStream →
      ∃ s : QStream, 3 < s.streamID ∧
        lookupM (getDataRetriveStream 3 [] [⟨7, 0⟩]).finalMap s.streamID = some s) :=
  ⟨by simp, (getDataRetriveStream_filing_invariant 3 [] [⟨7, 0⟩] (by simp)).2⟩

/-! ## C4 -/

/-- C4: counterexample to the claim — it is not the case that
`getDataRetriveStream` releases the session mutex around its blocking
`AcceptUniStream` calls: in the trace of a call that has to accept, the
accept event happens while the mutex is held. -/
theorem mutex_across_accept_counterexample :
    ¬ (∀ (sid : Nat) (m : RMap) (pending : List QStream) (i : Nat),
        (getDataRetriveStream sid m pending).events[i]? = some LockEvent.acceptUni →
        heldAt (getDataRetriveStream sid m pending).events i = false) := by
  intro h
  exact absurd (h 3 [] [⟨7, 0⟩] 1 (by decide)) (by decide)

/-- A trace without occurrences of `e` counts zero `e`s. -/
theorem countEv_eq_zero {e : LockEvent} {l : List LockEvent} (h : ∀ x ∈ l, x ≠ e) :
    countEv e l = 0 := by
  induction l with
  | nil => rfl
  | cons x xs ih =>
    have hx : ¬ x = e := h x (List.mem_cons_self x xs)
    simp [countEv, hx, ih (fun y hy => h y (List.mem_cons_of_mem x hy))]

/-- C4 (amended): `getDataRetriveStream` acquires `structAccessMutex`
once on entry and releases it only when returning, so the mutex IS held
across every blocking `AcceptUniStream` call its loop performs. -/
theorem mutex_held_across_accept (sid : Nat) (m : RMap) (pending : List QStream) (i : Nat) :
    (getDataRetriveStream sid m pending).events[i]? = some LockEvent.acceptUni →
    heldAt (getDataRetriveStream sid m pending).events i = true := by
  intro hev
  set evs := (rendezvousLoop sid m pending).events with hevs
  have hall : ∀ e ∈ evs, e = LockEvent.acceptUni :=
    rendezvousLoop_events_accept sid pending m
  have hshape : (getDataRetriveStream sid m pending).events =
      LockEvent.lock :: (evs ++ [LockEvent.unlock]) := rfl
  rw [hshape] at hev ⊢
  match i with
  | 0 => simp at hev
  | j + 1 =>
    have hj : (evs ++ [LockEvent.unlock])[j]? = some LockEvent.acceptUni := by
      simpa using hev
    have hjlt : j < evs.length := by
      by_contra hge
      push_neg at hge
      rw [List.getElem?_append_right hge] at hj
      rcases Nat.eq_or_lt_of_le hge with heq | hlt2
      · rw [← heq, Nat.sub_self] at hj
        simp at hj
      · rw [List.getElem?_eq_none (by simp; omega)] at hj
        exact Option.noConfusion hj
    have htake : (LockEvent.lock :: (evs ++ [LockEvent.unlock])).take (j + 1) =
        LockEvent.lock :: evs.take j := by
      rw [List.take_succ_cons, List.take_append_of_le_length (Nat.le_of_lt hjlt)]
    have hcu : countEv LockEvent.unlock (evs.take j) = 0 := by
      apply countEv_eq_zero
      intro x hx he
      have hacc := hall x (List.mem_of_mem_take hx)
      rw [he] at hacc
      exact LockEvent.noConfusion hacc
    have h1 : countEv LockEvent.unlock (LockEvent.lock :: evs.take j) = 0 := by
      show (if LockEvent.lock = LockEvent.unlock then 1 else 0) +
        countEv LockEvent.unlock (evs.take j) = 0
      rw [if_neg (by decide), hcu]
    have h2 : 0 < countEv LockEvent.lock (LockEvent.lock :: evs.take j) := by
      show 0 < (if LockEvent.lock = LockEvent.lock then 1 else 0) +
        countEv LockEvent.lock (evs.take j)
      rw [if_pos rfl]
      omega
    simp only [heldAt, htake]
    rw [h1]
    exact decide_eq_true h2

/-- Witness for the amended C4: the accept in the trace of
`getDataRetriveStream 3 [] [⟨7,0⟩]` happens with the mutex held. -/
theorem mutex_held_across_accept_witness :
    (getDataRetriveStream 3 [] [⟨7, 0⟩]).events[1]? = some LockEvent.acceptUni ∧
    heldAt (getDataRetriveStream 3 [] [⟨7, 0⟩]).events 1 = true :=
  ⟨by decide, mutex_held_across_accept 3 [] [⟨7, 0⟩] 1 (by decide)⟩

/-! ## C2 -/

/-- Structure of a successful `ParseInt`: an optional sign and a
non-empty run of digits making up the whole input. -/
theorem parseIntGo_some {s : String} {i : Int} (h : parseIntGo s = some i) :
    ∃ sgn ds : List Char, (sgn = [] ∨ sgn = ['+'] ∨ sgn = ['-']) ∧
      s.data = sgn ++ ds ∧ ds ≠ [] ∧ ds.all Char.isDigit = true ∧
      i = (if sgn = ['-'] then -1 else 1) * (digitsVal ds : Int) := by
  have hcore : ∀ (sign : Int) (ds : List Char) (j : Int), parseIntCore sign ds = some j →
      ds ≠ [] ∧ ds.all Char.isDigit = true ∧ j = sign * (digitsVal ds : Int) := by
    intro sign ds j hc
    unfold parseIntCore at hc
    by_cases hds : ds = []
    · rw [if_pos hds] at hc; exact Option.noConfusion hc
    · rw [if_neg hds] at hc
      by_cases hdig : ds.all Char.isDigit
      · rw [if_pos hdig] at hc
        simp only [] at hc
        split at hc
        · exact ⟨hds, hdig, (Option.some.injEq _ _ ▸ hc).symm⟩
        · exact Option.noConfusion hc
      · rw [if_neg hdig] at hc; exact Option.noConfusion hc
  cases hd : s.data with
  | nil => rw [parseIntGo, hd] at h; exact Option.noConfusion h
  | cons c rest =>
    have h2 : (if c = '-' then parseIntCore (-1) rest
        else if c = '+' then parseIntCore 1 rest
        else parseIntCore 1 (c :: rest)) = some i := by
      rw [parseIntGo, hd] at h; exact h
    by_cases hneg : c = '-'
    · subst hneg
      rw [if_pos rfl] at h2
      obtain ⟨hds, hdig, hval⟩ := hcore _ _ _ h2
      refine ⟨['-'], rest, Or.inr (Or.inr rfl), by simp [hd], hds, hdig, ?_⟩
      rw [hval, if_pos rfl]
    · by_cases hplus : c = '+'
      · subst hplus
        rw [if_neg hneg, if_pos rfl] at h2
        obtain ⟨hds, hdig, hval⟩ := hcore _ _ _ h2
        refine ⟨['+'], rest, Or.inr (Or.inl rfl), by simp [hd], hds, hdig, ?_⟩
        rw [hval, if_neg (by decide : ¬ (['+'] : List Char) = ['-'])]
      · rw [if_neg hneg, if_neg hplus] at h2
        obtain ⟨hds, hdig, hval⟩ := hcore _ _ _ h2
        refine ⟨[], c :: rest, Or.inl rfl, by simp [hd], hds, hdig, ?_⟩
        rw [hval, if_neg (by decide : ¬ ([] : List Char) = ['-'])]

/-- When the first space-separated part of the message fully parses to a
non-negative integer with remainder 3 mod 4, the spec's validity
condition holds of the message. -/
theorem validStreamID_of_pieces {msg : String} {a b : List Char} {i : Int}
    (hbr : breakAtFirst ' ' msg.data = some (a, b))
    (hp : parseIntGo (String.mk a) = some i)
    (hnn : 0 ≤ i) (hmod : i.tmod 4 = 3) :
    beginsWithValidStreamID msg ∧ i ≠ 0 ∧ i % 4 = 3 := by
  obtain ⟨sgn, ds, hsgn, hdata, hne, hdig, hval⟩ := parseIntGo_some hp
  have hdata2 : a = sgn ++ ds := hdata
  have hmsg : msg.data = sgn ++ ds ++ ' ' :: b := by
    rw [breakAtFirst_sound hbr, hdata2, List.append_assoc]
  have hemod : i % 4 = 3 := by
    rw [← Int.tmod_eq_emod hnn (by norm_num)]; exact hmod
  have hne0 : i ≠ 0 := by
    intro h0
    rw [h0] at hmod
    exact absurd hmod (by decide)
  refine ⟨⟨sgn, ds, b, hsgn, hne, hdig, hmsg, ?_, ?_, ?_⟩, hne0, hemod⟩
  · rw [← hval]; exact hne0
  · rw [← hval]; exact hnn
  · rw [← hval]; exact hemod

/-- C2: `cmdDataReceiveStreamFrom`'s reply handling — any code other
than 125/150 yields the protocol-reply error carrying the received code
and message; for 125/150, unless the message begins with an ASCII
decimal integer `i` and a space with `i` non-negative, non-zero and
`i mod 4 = 3`, one of the two protocol-format errors is returned (and no
stream is claimed); and a claimed stream always comes with a valid ID. -/
theorem cmdDataReceive_reply_validation (code : Nat) (msg : String) :
    (¬ (code = 125 ∨ code = 150) →
      cmdDataReceiveReplyCheck code msg = RecvOutcome.protoReply code msg) ∧
    ((code = 125 ∨ code = 150) → ¬ beginsWithValidStreamID msg →
      (cmdDataReceiveReplyCheck code msg = RecvOutcome.errNoID ∨
       cmdDataReceiveReplyCheck code msg = RecvOutcome.errBadID)) ∧
    (∀ i : Int, cmdDataReceiveReplyCheck code msg = RecvOutcome.claimStream i →
      beginsWithValidStreamID msg ∧ 0 ≤ i ∧ i ≠ 0 ∧ i % 4 = 3) := by
  refine ⟨?_, ?_, ?_⟩
  · intro h
    push_neg at h
    have hcond : code ≠ StatusAlreadyOpen ∧ code ≠ StatusAboutToSend := h
    simp [cmdDataReceiveReplyCheck, hcond]
  · intro hcode hnc
    have hcond : ¬ (code ≠ StatusAlreadyOpen ∧ code ≠ StatusAboutToSend) := by
      rcases hcode with h | h <;> simp [h, StatusAlreadyOpen, StatusAboutToSend]
    rw [cmdDataReceiveReplyCheck, if_neg hcond]
    rcases hbr : breakAtFirst ' ' msg.data with _ | ⟨a, b⟩
    · left
      simp [parseStreamIDFromMsg, hbr]
    · rcases hp : parseIntGo (String.mk a) with _ | j
      · right
        simp [parseStreamIDFromMsg, hbr, hp]
      · by_cases hbad : j < 0 ∨ j.tmod 4 ≠ 3
        · right
          simp [parseStreamIDFromMsg, hbr, hp, hbad]
        · push_neg at hbad
          exact absurd (validStreamID_of_pieces hbr hp hbad.1 hbad.2).1 hnc
  · intro i hclaim
    by_cases hcond : code ≠ StatusAlreadyOpen ∧ code ≠ StatusAboutToSend
    · rw [cmdDataReceiveReplyCheck, if_pos hcond] at hclaim
      exact RecvOutcome.noConfusion hclaim
    · rw [cmdDataReceiveReplyCheck, if_neg hcond] at hclaim
      rcases hbr : breakAtFirst ' ' msg.data with _ | ⟨a, b⟩
      · simp [parseStreamIDFromMsg, hbr] at hclaim
      · rcases hp : parseIntGo (String.mk a) with _ | j
        · simp [parseStreamIDFromMsg, hbr, hp] at hclaim
        · by_cases hbad : j < 0 ∨ j.tmod 4 ≠ 3
          · simp [parseStreamIDFromMsg, hbr, hp, hbad] at hclaim
          · have hji : j = i := by
              simp [parseStreamIDFromMsg, hbr, hp, hbad] at hclaim
              exact hclaim
            subst hji
            push_neg at hbad
            obtain ⟨hc, hne0, hm⟩ := validStreamID_of_pieces hbr hp hbad.1 hbad.2
            exact ⟨hc, hbad.1, hne0, hm⟩

/-- Witness for C2 at reply code 150 with a message that carries no
stream ID: a protocol-format error results. -/
theorem cmdDataReceive_reply_validation_witness :
    ((150 : Nat) = 125 ∨ (150 : Nat) = 150) ∧ ¬ beginsWithValidStreamID "Opening" ∧
    (cmdDataReceiveReplyCheck 150 "Opening" = RecvOutcome.errNoID ∨
     cmdDataReceiveReplyCheck 150 "Opening" = RecvOutcome.errBadID) := by
  have hnc : ¬ beginsWithValidStreamID "Opening" := by
    rintro ⟨sgn, ds, rest, -, -, -, habs, -⟩
    have hsp : ' ' ∈ ("Opening" : String).data := by
      rw [habs]; simp
    exact absurd hsp (by decide)
  exact ⟨Or.inr rfl, hnc,
    (cmdDataReceive_reply_validation 150 "Opening").2.1 (Or.inr rfl) hnc⟩

/-! ## C6 -/

/-- C6: counter to the claim's totality assertion, `parseLsListLine`
does not return the unsupported-line error on lines whose
whitespace-split has fewer than two fields: the unguarded `fields[1]`
access panics on them (index out of range), for any behaviour of the
abstracted size/time parsing.  The empty line has no fields at all; a
one-field line panics the same way. -/
theorem parseLsListLine_short_line_panics :
    ∀ (tp : String → String → Option Nat) (pu0 : String → Nat × Bool) (thisYear : Nat),
      goFields "" = [] ∧
      parseLsListLine tp pu0 thisYear "" = ParseOutcome.panicked ∧
      parseLsListLine tp pu0 thisYear "onefield" = ParseOutcome.panicked := by
  intro tp pu0 thisYear
  exact ⟨rfl, rfl, rfl⟩

/-! ## C9 -/

/-- C9: `parseListLine` tries the three parsers in the order
[RFC 3659, `ls -l`, MS-DOS DIR] and returns the first outcome that is
not the unsupported-line error; and a line on which all three report
unsupported-line is silently dropped from `List`'s results. -/
theorem parseListLine_first_match (tp : String → String → Option Nat)
    (pu0 : String → Nat × Bool) (thisYear : Nat) (line : String) :
    (parseRFC3659ListLine tp pu0 line ≠ ParseOutcome.unsupported →
      parseListLine tp pu0 thisYear line = parseRFC3659ListLine tp pu0 line) ∧
    (parseRFC3659ListLine tp pu0 line = ParseOutcome.unsupported →
      parseLsListLine tp pu0 thisYear line ≠ ParseOutcome.unsupported →
      parseListLine tp pu0 thisYear line = parseLsListLine tp pu0 thisYear line) ∧
    (parseRFC3659ListLine tp pu0 line = ParseOutcome.unsupported →
      parseLsListLine tp pu0 thisYear line = ParseOutcome.unsupported →
      parseListLine tp pu0 thisYear line = parseDirListLine tp line) ∧
    (∀ pre post : List String,
      parseRFC3659ListLine tp pu0 line = ParseOutcome.unsupported →
      parseLsListLine tp pu0 thisYear line = ParseOutcome.unsupported →
      parseDirListLine tp line = ParseOutcome.unsupported →
      listLines tp pu0 thisYear (pre ++ line :: post) = listLines tp pu0 thisYear (pre ++ post)) := by
  refine ⟨?_, ?_, ?_, ?_⟩
  · intro h1
    cases hr : parseRFC3659ListLine tp pu0 line <;>
      first
        | exact absurd hr h1
        | simp [parseListLine, listLineForms, tryLineForms, hr]
  · intro h1 h2
    cases hr : parseLsListLine tp pu0 thisYear line <;>
      first
        | exact absurd hr h2
        | simp [parseListLine, listLineForms, tryLineForms, h1, hr]
  · intro h1 h2
    cases hr : parseDirListLine tp line <;>
      simp [parseListLine, listLineForms, tryLineForms, h1, h2, hr]
  · intro pre post h1 h2 h3
    have hparse : parseListLine tp pu0 thisYear line = ParseOutcome.unsupported := by
      simp [parseListLine, listLineForms, tryLineForms, h1, h2, h3]
    induction pre with
    | nil => simp [listLines, hparse]
    | cons x pre ih =>
      cases hx : parseListLine tp pu0 thisYear x <;>
        simp [listLines, hx, ih]

/-- Witness for C9: on the empty line the RFC 3659 parser reports
unsupported-line and the `ls -l` parser's outcome (a panic) is
propagated as `parseListLine`'s result. -/
theorem parseListLine_first_match_witness :
    parseRFC3659ListLine (fun _ _ => none) (fun _ => (0, false)) "" = ParseOutcome.unsupported ∧
    parseLsListLine (fun _ _ => none) (fun _ => (0, false)) 2026 "" ≠ ParseOutcome.unsupported ∧
    parseListLine (fun _ _ => none) (fun _ => (0, false)) 2026 "" =
      parseLsListLine (fun _ _ => none) (fun _ => (0, false)) 2026 "" :=
  ⟨rfl, by decide,
    (parseListLine_first_match (fun _ _ => none) (fun _ => (0, false)) 2026 "").2.1
      rfl (by decide)⟩

end Ftpq
